import Mathlib

/-!
Verification of `src/general/communication.hpp` (MFEM communication layer).

Shallow embedding notes:
- We model the MFEM_DEBUG build: `MFEM_ASSERT` and the debug-guarded
  `MFEM_VERIFY` are active; a failed assertion aborts the process, which we
  embed as `Except.error` with the assertion message.
- MPI handles are abstracted: `MPI_Request` becomes `Option Nat`
  (`none` = `MPI_REQUEST_NULL`), ranks are `Int` (C++ `int`), raw byte
  payloads (`std::string data`) are `List Nat`.
- The network side of a blocking/non-blocking MPI call is passed in
  explicitly: a probe sees the (optional) pending message, a receive sees
  the payload that the transport delivers.
- The virtual `Encode`/`Decode` hooks of `VarMessage` are no-ops on `data`
  in the base class; subclass-visible decoded/encoded state can change only
  when a hook runs, so we instrument the model with `encodeLog`/`decodeLog`
  fields that record each hook invocation (the rank argument).
-/

namespace mfem

/-- Model of `VarMessage<Tag>` (communication.hpp lines 300-423):
`data` is the raw byte payload, `send_request` the pending MPI request
(`none` = `MPI_REQUEST_NULL`), and `encodeLog`/`decodeLog` record the
invocations of the virtual `Encode`/`Decode` hooks. -/
structure VarMessage where
  data : List Nat
  send_request : Option Nat
  encodeLog : List Int
  decodeLog : List Int
deriving DecidableEq, Repr

/-- The virtual `Encode(int rank)` hook: a no-op on `data` in the base
class; the model records the invocation. -/
def VarMessage.Encode (m : VarMessage) (rank : Int) : VarMessage :=
  { m with encodeLog := m.encodeLog ++ [rank] }

/-- The virtual `Decode(int rank)` hook: a no-op on `data` in the base
class; the model records the invocation. -/
def VarMessage.Decode (m : VarMessage) (rank : Int) : VarMessage :=
  { m with decodeLog := m.decodeLog ++ [rank] }

/-- `VarMessage::Clear()`: `data.clear(); send_request = MPI_REQUEST_NULL;`. -/
def VarMessage.Clear (m : VarMessage) : VarMessage :=
  { m with data := [], send_request := none }

/-- `VarMessage::Isend(int rank, MPI_Comm comm)`: calls `Encode(rank)`, then
`MPI_Isend` of the payload, storing the new request handle in
`send_request`.  There is no check of a previously pending request; the old
handle is simply overwritten.  `req` is the fresh request handle returned by
`MPI_Isend`. -/
def VarMessage.Isend (m : VarMessage) (rank : Int) (req : Nat) :
    Except String VarMessage :=
  .ok { m.Encode rank with send_request := some req }

/-- `VarMessage::~VarMessage()`: `MFEM_ASSERT(send_request ==
MPI_REQUEST_NULL, "WaitAllSent was not called after Isend")`. -/
def VarMessage.destroy (m : VarMessage) : Except String Unit :=
  if m.send_request = none then .ok ()
  else .error "WaitAllSent was not called after Isend"

/-- `VarMessage::VarMessage(const VarMessage &other)`: copies `data` and
`send_request`, then `MFEM_ASSERT(send_request == MPI_REQUEST_NULL, "Cannot
copy message with a pending send.")`. -/
def VarMessage.copy (m : VarMessage) : Except String VarMessage :=
  if m.send_request = none then .ok m
  else .error "Cannot copy message with a pending send."

/-- `VarMessage::Probe(int &rank, int &size, MPI_Comm comm)` (blocking):
the incoming traffic of this message class is `network`, a queue of
(source rank, payload) pairs; `MPI_Probe` returns the head.  An empty queue
means `MPI_Probe` blocks forever and the call never returns, which the model
expresses as `none`. -/
def VarMessage.Probe (network : List (Int × List Nat)) : Option (Int × Int) :=
  match network with
  | [] => none
  | (src, payload) :: _ => some (src, (payload.length : Int))

/-- `VarMessage::IProbe(int &rank, int &size, MPI_Comm comm)`
(non-blocking): `pending` is the message `MPI_Iprobe` can see (if any);
`rank` and `size` are the values of the output arguments before the call.
Returns the flag together with the final values of `rank` and `size`: on
`false` the outputs are not assigned, on `true` they are set to the source
and the exact byte count. -/
def VarMessage.IProbe (pending : Option (Int × List Nat)) (rank size : Int) :
    Bool × Int × Int :=
  match pending with
  | none => (false, rank, size)
  | some (src, payload) => (true, src, (payload.length : Int))

/-- `VarMessage::Recv(int rank, int size, MPI_Comm comm)`:
`MFEM_ASSERT(size >= 0)`, resize `data` to `size`, blocking `MPI_Recv`,
then (MFEM_DEBUG) `MFEM_VERIFY(count == size)` where `count` is the
actually-received byte count, then `Decode(rank)`.  `payload` is what the
transport delivers, so `count = payload.length`. -/
def VarMessage.Recv (m : VarMessage) (rank : Int) (size : Int)
    (payload : List Nat) : Except String VarMessage :=
  if size < 0 then .error "MFEM_ASSERT failed: size >= 0"
  else if (payload.length : Int) ≠ size then
    .error "MFEM_VERIFY failed: count == size"
  else .ok (VarMessage.Decode { m with data := payload } rank)

/-- `VarMessage::RecvDrop(int rank, int size, MPI_Comm comm)`: resize `data`
to `size`, blocking `MPI_Recv`, then `data.resize(0)` and no `Decode` call. -/
def VarMessage.RecvDrop (m : VarMessage) (rank : Int) (size : Int)
    (payload : List Nat) : VarMessage :=
  { m with data := [] }

instance {ε α : Type} [DecidableEq ε] [DecidableEq α] :
    DecidableEq (Except ε α)
  | .ok x, .ok y =>
    if h : x = y then .isTrue (congrArg Except.ok h)
    else .isFalse (fun hc => h (Except.ok.inj hc))
  | .error e, .error f =>
    if h : e = f then .isTrue (congrArg Except.error h)
    else .isFalse (fun hc => h (Except.error.inj hc))
  | .ok _, .error _ => .isFalse (fun hc => Except.noConfusion hc)
  | .error _, .ok _ => .isFalse (fun hc => Except.noConfusion hc)

/-- Lookup in the rank-to-message map (`rank_msg.find(rank)` on the
`std::map`, modelled as an association list with distinct keys). -/
def findMsg : List (Int × VarMessage) → Int → Option VarMessage
  | [], _ => none
  | (k, v) :: t, rank => if k = rank then some v else findMsg t rank

/-- Store a message under an existing key of the rank-to-message map
(the write-back of `rank_msg[rank].Recv(...)`). -/
def updateMsg : List (Int × VarMessage) → Int → VarMessage →
    List (Int × VarMessage)
  | [], _, _ => []
  | (k, v) :: t, rank, msg =>
    (k, if k = rank then msg else v) :: updateMsg t rank msg

/-- The `while (recv_left > 0)` loop of `VarMessage::RecvAll`: each
iteration probes the head of `network` (blocking: an empty queue never
returns), `MFEM_ASSERT`s that the probed source is a key of the map
("Unexpected message"), receives into that entry and decrements
`recv_left`.  Returns the final map and the unconsumed traffic. -/
def recvAllLoop : Nat → List (Int × VarMessage) → List (Int × List Nat) →
    Except String (List (Int × VarMessage) × List (Int × List Nat))
  | 0, rank_msg, network => .ok (rank_msg, network)
  | n + 1, rank_msg, network =>
    match network with
    | [] => .error "MPI_Probe: no incoming message, the call never returns"
    | (rank, payload) :: rest =>
      match findMsg rank_msg rank with
      | none => .error "Unexpected message"
      | some msg =>
        match msg.Recv rank (payload.length : Int) payload with
        | .error e => .error e
        | .ok msg2 => recvAllLoop n (updateMsg rank_msg rank msg2) rest

/-- `VarMessage::RecvAll(MapT &rank_msg, MPI_Comm comm)`:
`recv_left = rank_msg.size()` then the Probe+Recv loop. -/
def VarMessage.RecvAll (rank_msg : List (Int × VarMessage))
    (network : List (Int × List Nat)) :
    Except String (List (Int × VarMessage) × List (Int × List Nat)) :=
  recvAllLoop rank_msg.length rank_msg network

/-- Model of the `GroupTopology` state (communication.hpp lines 50-113):
the four tables, plus the rank that `MPI_Comm_rank` reports for `MyComm`
(the `myRank` field stands for the communicator). -/
structure GroupTopology where
  group_lproc : List (List Int)
  groupmaster_lproc : List Int
  lproc_proc : List Int
  group_mgroup : List Int
  myRank : Int
deriving DecidableEq, Repr

/-- `GroupTopology::MyRank()`: `MPI_Comm_rank(MyComm, &r)`. -/
def GroupTopology.MyRank (t : GroupTopology) : Int := t.myRank

/-- `GroupTopology::NGroups()`: `group_lproc.Size()`. -/
def GroupTopology.NGroups (t : GroupTopology) : Nat := t.group_lproc.length

/-- `GroupTopology::GetNumNeighbors()`: `lproc_proc.Size()`. -/
def GroupTopology.GetNumNeighbors (t : GroupTopology) : Nat :=
  t.lproc_proc.length

/-- `GroupTopology::GetNeighborRank(int i)`: `lproc_proc[i]` (in-range
access assumed by the caller, as in C++). -/
def GroupTopology.GetNeighborRank (t : GroupTopology) (i : Nat) : Int :=
  t.lproc_proc.getD i 0

/-- `GroupTopology::GetGroupMaster(int g)`: `groupmaster_lproc[g]`. -/
def GroupTopology.GetGroupMaster (t : GroupTopology) (g : Nat) : Int :=
  t.groupmaster_lproc.getD g 0

/-- `GroupTopology::IAmMaster(int g)`: `groupmaster_lproc[g] == 0`. -/
def GroupTopology.IAmMaster (t : GroupTopology) (g : Nat) : Bool :=
  decide (t.groupmaster_lproc.getD g 0 = 0)

/-- `GroupTopology::GetGroupMasterRank(int g)`:
`lproc_proc[groupmaster_lproc[g]]`. -/
def GroupTopology.GetGroupMasterRank (t : GroupTopology) (g : Nat) : Int :=
  t.lproc_proc.getD (t.groupmaster_lproc.getD g 0).toNat 0

/-- `GroupTopology::GetGroupMasterGroup(int g)`: `group_mgroup[g]`. -/
def GroupTopology.GetGroupMasterGroup (t : GroupTopology) (g : Nat) : Int :=
  t.group_mgroup.getD g 0

/-- `GroupTopology::GetGroupSize(int g)`: `group_lproc.RowSize(g)`. -/
def GroupTopology.GetGroupSize (t : GroupTopology) (g : Nat) : Nat :=
  (t.group_lproc.getD g []).length

/-- Modelled from the spec: the body of `GroupTopology::Create` is not in
the header.  Its documented postcondition (the assumptions stated at
communication.hpp lines 55-60 and in the spec) is: group 0 is the local
singleton group `[0]`, `groupmaster_lproc[0] = 0`, and `lproc_proc[0] =
MyRank`; the tables are nonempty so these entries exist. -/
def GroupTopology.CreateInvariant (t : GroupTopology) : Prop :=
  t.group_lproc.getD 0 [] = [0] ∧
  t.groupmaster_lproc.getD 0 0 = 0 ∧
  t.lproc_proc.getD 0 0 = t.myRank ∧
  0 < t.group_lproc.length ∧
  0 < t.groupmaster_lproc.length ∧
  0 < t.lproc_proc.length

instance (t : GroupTopology) : Decidable (t.CreateInvariant) := by
  unfold GroupTopology.CreateInvariant
  infer_instance

/-- Model of the `GroupCommunicator` state that the lock/phase protocol
touches: `comm_lock` is the C++ `int comm_lock` ("0 - no lock, 1 - locked
for Bcast, 2 - locked for Reduce", communication.hpp line 137), and
`group_buf` abstracts the packed shared byte buffer that an in-flight
operation owns. -/
structure GroupCommunicator where
  comm_lock : Nat
  group_buf : List Int
deriving DecidableEq, Repr

/-- The diagnostic printed by the fatal exclusivity-lock assertion. -/
def busyMsg : String :=
  "MFEM_VERIFY failed: the GroupCommunicator object is busy"

/-- Modelled from the spec: the `GroupCommunicator` constructor body is not
in the header; a fresh communicator has no operation in flight
(`comm_lock = 0`) and an empty buffer. -/
def GroupCommunicator.init : GroupCommunicator :=
  { comm_lock := 0, group_buf := [] }

/-- Modelled from the spec: the body of `GroupCommunicator::BcastBegin(T
*ldata, int layout)` is not in the header.  Per the spec, calling Begin
while another operation's End has not yet been called is a fatal usage
error; otherwise the Begin phase packs the group data from `ldata` into the
shared buffer, posts the non-blocking transfers, and locks the object for
Bcast (`comm_lock = 1`).  The packing itself is abstracted as storing
`ldata` in `group_buf`. -/
def GroupCommunicator.BcastBegin (c : GroupCommunicator) (ldata : List Int)
    (layout : Nat) : Except String GroupCommunicator :=
  if c.comm_lock ≠ 0 then .error busyMsg
  else .ok { c with comm_lock := 1, group_buf := ldata }

/-- Modelled from the spec: the body of `GroupCommunicator::BcastEnd(T
*ldata, int layout)` is not in the header.  End blocks until the in-flight
transfers complete, unpacks the received values into `ldata` at the output
layout, and unlocks the object (`comm_lock = 0`).  The unpacking is
abstracted as returning `group_buf` as the new contents of `ldata`. -/
def GroupCommunicator.BcastEnd (c : GroupCommunicator) (ldata : List Int)
    (layout : Nat) : GroupCommunicator × List Int :=
  ({ c with comm_lock := 0 }, c.group_buf)

/-- `GroupCommunicator::Bcast(T *ldata, int layout)` (communication.hpp
lines 232-236): `BcastBegin(ldata, layout); BcastEnd(ldata, layout);`.
A fatal assertion in Begin aborts the process, so End is not reached. -/
def GroupCommunicator.Bcast (c : GroupCommunicator) (ldata : List Int)
    (layout : Nat) : Except String (GroupCommunicator × List Int) :=
  match c.BcastBegin ldata layout with
  | .error e => .error e
  | .ok c1 => .ok (c1.BcastEnd ldata layout)

/-- Modelled from the spec: the body of `GroupCommunicator::ReduceBegin(
const T *ldata)` is not in the header.  Same exclusivity check as
BcastBegin; on success the layout-0 input is gathered into the buffer and
the object is locked for Reduce (`comm_lock = 2`). -/
def GroupCommunicator.ReduceBegin (c : GroupCommunicator)
    (ldata : List Int) : Except String GroupCommunicator :=
  if c.comm_lock ≠ 0 then .error busyMsg
  else .ok { c with comm_lock := 2, group_buf := ldata }

/-- Modelled from the spec: the body of `GroupCommunicator::ReduceEnd(T
*ldata, int layout, void (*Op)(OpData<T>))` is not in the header.  End
waits for the gathered contributions, combines them elementwise into
`ldata` with `Op`, and unlocks the object.  The combination is abstracted
as an elementwise fold of the buffer into `ldata`. -/
def GroupCommunicator.ReduceEnd (c : GroupCommunicator) (ldata : List Int)
    (layout : Nat) (op : Int → Int → Int) :
    GroupCommunicator × List Int :=
  ({ c with comm_lock := 0 }, List.zipWith op c.group_buf ldata)

/-- `GroupCommunicator::Reduce(T *ldata, void (*Op)(OpData<T>))`
(communication.hpp lines 272-276): `ReduceBegin(ldata); ReduceEnd(ldata, 0,
Op);`. -/
def GroupCommunicator.Reduce (c : GroupCommunicator) (ldata : List Int)
    (op : Int → Int → Int) :
    Except String (GroupCommunicator × List Int) :=
  match c.ReduceBegin ldata with
  | .error e => .error e
  | .ok c1 => .ok (c1.ReduceEnd ldata 0 op)

/-! Helper lemmas shared by the claim theorems. -/

/-- A receive whose `size` argument came from a matching probe (so `size`
is the delivered payload length) always succeeds and invokes `Decode`. -/
theorem recv_probe_ok (m : VarMessage) (rank : Int) (payload : List Nat) :
    m.Recv rank (payload.length : Int) payload =
      .ok (VarMessage.Decode { m with data := payload } rank) := by
  have h1 : ¬ ((payload.length : Int) < 0) := by omega
  simp [VarMessage.Recv, h1]

/-- Updating an entry of the rank-to-message map does not change which
keys are present. -/
theorem findMsg_updateMsg_isSome (l : List (Int × VarMessage))
    (rank j : Int) (msg : VarMessage) :
    (findMsg (updateMsg l rank msg) j).isSome = (findMsg l j).isSome := by
  induction l with
  | nil => rfl
  | cons p t ih =>
    obtain ⟨k, v⟩ := p
    by_cases hj : k = j
    · subst hj
      simp [updateMsg, findMsg]
    · simp [updateMsg, findMsg, hj, ih]

/-- The RecvAll loop with fuel `n` succeeds and consumes exactly the first
`n` queued messages when each of their sources is a key of the map. -/
theorem recvAllLoop_ok (n : Nat) :
    ∀ (rank_msg : List (Int × VarMessage))
      (network : List (Int × List Nat)),
    n ≤ network.length →
    (∀ p ∈ network.take n, (findMsg rank_msg p.1).isSome = true) →
    ∃ final, recvAllLoop n rank_msg network =
      .ok (final, network.drop n) := by
  induction n with
  | zero => intro rank_msg network _ _; exact ⟨rank_msg, rfl⟩
  | succ n ih =>
    intro rank_msg network hlen hkeys
    match network with
    | [] => simp at hlen
    | (rank, payload) :: rest =>
      have hhead : (findMsg rank_msg rank).isSome = true := by
        have := hkeys (rank, payload) (by simp)
        simpa using this
      obtain ⟨msg, hmsg⟩ := Option.isSome_iff_exists.mp hhead
      obtain ⟨final, hfinal⟩ :=
        ih (updateMsg rank_msg rank
              (VarMessage.Decode { msg with data := payload } rank)) rest
          (by simpa using hlen)
          (by
            intro p hp
            rw [findMsg_updateMsg_isSome]
            exact hkeys p (by simp [hp]))
      refine ⟨final, ?_⟩
      simp [recvAllLoop, hmsg, recv_probe_ok, hfinal]

/-! Claim theorems. -/

/-- C2 counterexample: at this concrete message a previous send is still
pending (`send_request ≠ none`, `Clear` was not called), yet `Isend`
succeeds rather than failing fatally, overwriting the pending request. -/
theorem isend_no_pending_check_counterexample :
    (VarMessage.mk [] (some 0) [] []).send_request ≠ none ∧
    (VarMessage.mk [] (some 0) [] []).Isend 2 7 =
      .ok (VarMessage.mk [] (some 7) [2] []) := by
  decide

/-- C2 (amended): `Isend` performs no pending-send check: for every
message, including one whose previous send is still pending, `Isend`
succeeds, invoking `Encode` and overwriting `send_request` with the fresh
request handle; the pending-send invariant is enforced only by the
destructor and the copy constructor. -/
theorem isend_overwrites_pending (m : VarMessage) (rank : Int)
    (req : Nat) :
    m.Isend rank req =
      .ok { m with encodeLog := m.encodeLog ++ [rank],
                   send_request := some req } := rfl

/-- C4: `Recv(rank, size, comm)` performs a blocking receive of the
delivered payload and invokes the `Decode` hook when the actually-received
byte count equals `size`; when the received count differs from `size` the
call is a fatal assertion. -/
theorem recv_exact_or_fatal (m : VarMessage) (rank size : Int)
    (payload : List Nat) :
    ((payload.length : Int) = size →
      m.Recv rank size payload =
        .ok (VarMessage.Decode { m with data := payload } rank)) ∧
    ((payload.length : Int) ≠ size →
      ∃ e, m.Recv rank size payload = .error e) := by
  constructor
  · intro h
    rw [← h]
    exact recv_probe_ok m rank payload
  · intro h
    by_cases hs : size < 0
    · exact ⟨"MFEM_ASSERT failed: size >= 0",
        by simp [VarMessage.Recv, hs]⟩
    · exact ⟨"MFEM_VERIFY failed: count == size",
        by simp [VarMessage.Recv, hs, h]⟩

/-- C4 witness: a two-byte payload received with `size = 2` succeeds and
decodes; a one-byte payload received with `size = 2` is fatal. -/
theorem recv_exact_or_fatal_witness :
    (VarMessage.mk [] none [] []).Recv 1 2 [7, 8] =
      .ok (VarMessage.mk [7, 8] none [] [1]) ∧
    ∃ e, (VarMessage.mk [] none [] []).Recv 1 2 [7] = .error e :=
  ⟨(recv_exact_or_fatal (VarMessage.mk [] none [] []) 1 2 [7, 8]).1
      (by decide),
   (recv_exact_or_fatal (VarMessage.mk [] none [] []) 1 2 [7]).2
      (by decide)⟩

/-- C6: `RecvAll` performs exactly map-size many Probe+Recv iterations:
when every probed source among the first map-size incoming messages is a
key of the map it terminates successfully having consumed exactly that
many messages; a probed source that is not a key of the map is a fatal
assertion; and it does not defend against two messages from the same
source when only one was expected (concrete instance: expecting one
message each from sources 1 and 2 but with the traffic carrying two
messages from source 1, the call succeeds, source 1's entry is decoded
twice and source 2's entry never receives anything). -/
theorem recvAll_count_and_sources (rank_msg : List (Int × VarMessage))
    (network : List (Int × List Nat)) :
    (rank_msg.length ≤ network.length →
      (∀ p ∈ network.take rank_msg.length,
        (findMsg rank_msg p.1).isSome = true) →
      ∃ final, VarMessage.RecvAll rank_msg network =
        .ok (final, network.drop rank_msg.length)) ∧
    (∀ rank payload rest, network = (rank, payload) :: rest →
      rank_msg ≠ [] → findMsg rank_msg rank = none →
      VarMessage.RecvAll rank_msg network = .error "Unexpected message") ∧
    (VarMessage.RecvAll
        [(1, VarMessage.mk [] none [] []), (2, VarMessage.mk [] none [] [])]
        [(1, [7]), (1, [8])] =
      .ok ([(1, VarMessage.mk [8] none [] [1, 1]),
            (2, VarMessage.mk [] none [] [])], [])) := by
  refine ⟨?_, ?_, by decide⟩
  · intro hlen hkeys
    exact recvAllLoop_ok rank_msg.length rank_msg network hlen hkeys
  · intro rank payload rest hnet hne hfind
    subst hnet
    match rank_msg, hne with
    | q :: t, _ =>
      simp [VarMessage.RecvAll, recvAllLoop, hfind]

/-- C6 witness: one expected source, one queued message from it: the call
succeeds consuming the whole queue; one queued message from an unexpected
source: the call is the fatal unexpected-message assertion. -/
theorem recvAll_count_and_sources_witness :
    (∃ final, VarMessage.RecvAll [(3, VarMessage.mk [] none [] [])]
        [(3, [9])] = .ok (final, [])) ∧
    VarMessage.RecvAll [(3, VarMessage.mk [] none [] [])] [(4, [9])] =
      .error "Unexpected message" :=
  ⟨(recvAll_count_and_sources [(3, VarMessage.mk [] none [] [])]
      [(3, [9])]).1 (by decide) (by decide),
   (recvAll_count_and_sources [(3, VarMessage.mk [] none [] [])]
      [(4, [9])]).2.1 4 [9] [] rfl (by decide) (by decide)⟩

/-- C7: destroying a `VarMessage` whose send is still pending
(`send_request` not `MPI_REQUEST_NULL`) triggers the fatal pending-send
assertion, and copy-constructing such a message is likewise fatal. -/
theorem pending_send_fatal (m : VarMessage)
    (h : m.send_request ≠ none) :
    m.destroy = .error "WaitAllSent was not called after Isend" ∧
    m.copy = .error "Cannot copy message with a pending send." := by
  constructor <;> simp [VarMessage.destroy, VarMessage.copy, h]

/-- C7 witness: a concrete message with a pending request. -/
theorem pending_send_fatal_witness :
    (VarMessage.mk [5] (some 3) [] []).destroy =
      .error "WaitAllSent was not called after Isend" ∧
    (VarMessage.mk [5] (some 3) [] []).copy =
      .error "Cannot copy message with a pending send." :=
  pending_send_fatal (VarMessage.mk [5] (some 3) [] []) (by decide)

/-- C8: `IProbe` never blocks (the model is a total single-step function):
with no pending message it returns false and the output arguments `rank`
and `size` keep their prior (unassigned) values; with a pending message it
returns true with `rank` the source and `size` the exact byte length. -/
theorem iprobe_nonblocking (r s src : Int) (payload : List Nat) :
    VarMessage.IProbe none r s = (false, r, s) ∧
    VarMessage.IProbe (some (src, payload)) r s =
      (true, src, (payload.length : Int)) :=
  ⟨rfl, rfl⟩

/-- C10: `RecvDrop` leaves the message payload empty on return and never
invokes the `Decode` hook: the decode log (hence any subclass decoded
state), the encode log and the pending-send field are all unchanged. -/
theorem recvDrop_no_decode (m : VarMessage) (rank size : Int)
    (payload : List Nat) :
    (m.RecvDrop rank size payload).data = [] ∧
    (m.RecvDrop rank size payload).decodeLog = m.decodeLog ∧
    (m.RecvDrop rank size payload).send_request = m.send_request ∧
    (m.RecvDrop rank size payload).encodeLog = m.encodeLog :=
  ⟨rfl, rfl, rfl, rfl⟩

/-- C1: calling a Begin operation (`BcastBegin` or `ReduceBegin`) while a
previously begun broadcast or reduction has not yet had its matching End
called is a fatal usage error; in particular, `BcastBegin` twice without an
intervening `BcastEnd` hits the fatal exclusivity-lock violation.  The
lock token takes exactly the three states 0 = idle, 1 =
broadcast-in-flight, 2 = reduce-in-flight: a fresh communicator is idle,
a successful `BcastBegin` / `ReduceBegin` moves to 1 / 2, and either End
returns to idle. -/
theorem comm_lock_exclusivity (c c1 c2 : GroupCommunicator)
    (l1 l2 r : List Int) (y1 y2 : Nat) (op : Int → Int → Int) :
    (c.comm_lock ≠ 0 →
      (∃ e, c.BcastBegin l1 y1 = .error e) ∧
      (∃ e, c.ReduceBegin r = .error e)) ∧
    (c.BcastBegin l1 y1 = .ok c1 →
      c1.comm_lock = 1 ∧ ∃ e, c1.BcastBegin l2 y2 = .error e) ∧
    (c.ReduceBegin r = .ok c2 →
      c2.comm_lock = 2 ∧ (∃ e, c2.BcastBegin l2 y2 = .error e) ∧
        (∃ e, c2.ReduceBegin l2 = .error e)) ∧
    (c.BcastEnd l1 y1).1.comm_lock = 0 ∧
    (c.ReduceEnd r y1 op).1.comm_lock = 0 ∧
    GroupCommunicator.init.comm_lock = 0 := by
  refine ⟨?_, ?_, ?_, rfl, rfl, rfl⟩
  · intro h
    exact ⟨⟨busyMsg, by simp [GroupCommunicator.BcastBegin, h]⟩,
           ⟨busyMsg, by simp [GroupCommunicator.ReduceBegin, h]⟩⟩
  · intro h
    by_cases h0 : c.comm_lock = 0
    · simp only [GroupCommunicator.BcastBegin, h0, ne_eq,
        not_true_eq_false, if_false, reduceIte, Except.ok.injEq] at h
      subst h
      exact ⟨rfl, ⟨busyMsg, by simp [GroupCommunicator.BcastBegin]⟩⟩
    · simp [GroupCommunicator.BcastBegin, h0] at h
  · intro h
    by_cases h0 : c.comm_lock = 0
    · simp only [GroupCommunicator.ReduceBegin, h0, ne_eq,
        not_true_eq_false, if_false, reduceIte, Except.ok.injEq] at h
      subst h
      exact ⟨rfl, ⟨busyMsg, by simp [GroupCommunicator.BcastBegin]⟩,
             ⟨busyMsg, by simp [GroupCommunicator.ReduceBegin]⟩⟩
    · simp [GroupCommunicator.ReduceBegin, h0] at h

/-- C1 witness: a busy communicator rejects `BcastBegin`, and after a
successful `BcastBegin` from idle the lock is 1 and a second `BcastBegin`
is fatal. -/
theorem comm_lock_exclusivity_witness :
    (∃ e, (GroupCommunicator.mk 2 []).BcastBegin [3] 0 = .error e) ∧
    ((GroupCommunicator.mk 1 [5]).comm_lock = 1 ∧
      ∃ e, (GroupCommunicator.mk 1 [5]).BcastBegin [6] 0 = .error e) :=
  ⟨((comm_lock_exclusivity (GroupCommunicator.mk 2 [])
      (GroupCommunicator.mk 1 [3]) (GroupCommunicator.mk 2 [3])
      [3] [6] [3] 0 0 (fun a b => a + b)).1 (by decide)).1,
   (comm_lock_exclusivity (GroupCommunicator.mk 0 [])
      (GroupCommunicator.mk 1 [5]) (GroupCommunicator.mk 2 [])
      [5] [6] [] 0 0 (fun a b => a + b)).2.1 (by decide)⟩

/-- C3: after `Create` (whose documented postcondition is
`CreateInvariant`), group 0 has size 1, its master local-neighbor-id is 0,
`IAmMaster(0)` holds on every process, and local-neighbor-id 0 maps to the
local rank: `GetNeighborRank(0) = MyRank()`. -/
theorem group_zero_local (t : GroupTopology) (h : t.CreateInvariant) :
    t.GetGroupSize 0 = 1 ∧ t.GetGroupMaster 0 = 0 ∧
    t.IAmMaster 0 = true ∧ t.GetNeighborRank 0 = t.MyRank := by
  obtain ⟨h1, h2, h3, -⟩ := h
  refine ⟨?_, h2, ?_, h3⟩
  · unfold GroupTopology.GetGroupSize
    rw [h1]
    rfl
  · unfold GroupTopology.IAmMaster
    rw [h2]
    rfl

/-- C3 witness: a concrete two-group topology on rank 5 satisfying the
Create postcondition. -/
theorem group_zero_local_witness :
    (GroupTopology.mk [[0], [0, 1]] [0, 1] [5, 9] [0, 0] 5).GetGroupSize 0
        = 1 ∧
    (GroupTopology.mk [[0], [0, 1]] [0, 1] [5, 9] [0, 0] 5).GetGroupMaster 0
        = 0 ∧
    (GroupTopology.mk [[0], [0, 1]] [0, 1] [5, 9] [0, 0] 5).IAmMaster 0
        = true ∧
    (GroupTopology.mk [[0], [0, 1]] [0, 1] [5, 9] [0, 0] 5).GetNeighborRank 0
        = (GroupTopology.mk [[0], [0, 1]] [0, 1] [5, 9] [0, 0] 5).MyRank :=
  group_zero_local (GroupTopology.mk [[0], [0, 1]] [0, 1] [5, 9] [0, 0] 5)
    (by decide)

/-- C5: the fused `Bcast(ldata, layout)` is exactly `BcastBegin(ldata,
layout)` followed by `BcastEnd(ldata, layout)`, and the fused `Reduce(
ldata, Op)` is exactly `ReduceBegin(ldata)` followed by `ReduceEnd(ldata,
0, Op)`: the same result and the same final state, including the fatal
case in Begin. -/
theorem fused_eq_split (c : GroupCommunicator) (ldata : List Int)
    (layout : Nat) (op : Int → Int → Int) :
    c.Bcast ldata layout =
      (c.BcastBegin ldata layout).map
        (fun c1 => c1.BcastEnd ldata layout) ∧
    c.Reduce ldata op =
      (c.ReduceBegin ldata).map
        (fun c1 => c1.ReduceEnd ldata 0 op) := by
  constructor
  · by_cases h0 : c.comm_lock = 0 <;>
      simp [GroupCommunicator.Bcast, GroupCommunicator.BcastBegin, h0,
        Except.map]
  · by_cases h0 : c.comm_lock = 0 <;>
      simp [GroupCommunicator.Reduce, GroupCommunicator.ReduceBegin, h0,
        Except.map]

/-- C9: for a topology whose neighbor-rank table has pairwise-distinct
entries with entry 0 the local rank, and a group whose master
local-neighbor-id is a valid index, `IAmMaster(g)` holds if and only if
`GetGroupMasterRank(g)` equals `MyRank()`. -/
theorem iAmMaster_iff_masterRank (t : GroupTopology) (g : Nat)
    (hnodup : t.lproc_proc.Nodup)
    (h0 : t.lproc_proc.getD 0 0 = t.myRank)
    (hlen : 0 < t.lproc_proc.length)
    (hnn : 0 ≤ t.GetGroupMaster g)
    (hlt : (t.GetGroupMaster g).toNat < t.lproc_proc.length) :
    t.IAmMaster g = true ↔ t.GetGroupMasterRank g = t.MyRank := by
  unfold GroupTopology.IAmMaster GroupTopology.GetGroupMasterRank
    GroupTopology.MyRank
  unfold GroupTopology.GetGroupMaster at hnn hlt
  constructor
  · intro h
    have hm : t.groupmaster_lproc.getD g 0 = 0 := by simpa using h
    rw [hm]
    simpa using h0
  · intro h
    rw [← h0] at h
    rw [List.getD_eq_getElem t.lproc_proc 0 hlt,
        List.getD_eq_getElem t.lproc_proc 0 hlen] at h
    have := (List.Nodup.getElem_inj_iff hnodup).mp h
    have hz : t.groupmaster_lproc.getD g 0 = 0 := by omega
    rw [hz]
    rfl

/-- C9 witness: in the concrete topology of rank 5 with neighbor ranks
[5, 9], group 1 has master neighbor 1 (rank 9), so the process is not the
master and the master rank differs from the local rank; group 0 has master
neighbor 0 and the equivalence holds positively. -/
theorem iAmMaster_iff_masterRank_witness :
    ((GroupTopology.mk [[0], [0, 1]] [0, 1] [5, 9] [0, 0] 5).IAmMaster 1
        = true ↔
      (GroupTopology.mk [[0], [0, 1]] [0, 1] [5, 9] [0, 0]
          5).GetGroupMasterRank 1 =
        (GroupTopology.mk [[0], [0, 1]] [0, 1] [5, 9] [0, 0] 5).MyRank) ∧
    ((GroupTopology.mk [[0], [0, 1]] [0, 1] [5, 9] [0, 0] 5).IAmMaster 0
        = true ↔
      (GroupTopology.mk [[0], [0, 1]] [0, 1] [5, 9] [0, 0]
          5).GetGroupMasterRank 0 =
        (GroupTopology.mk [[0], [0, 1]] [0, 1] [5, 9] [0, 0] 5).MyRank) :=
  ⟨iAmMaster_iff_masterRank
      (GroupTopology.mk [[0], [0, 1]] [0, 1] [5, 9] [0, 0] 5) 1
      (by decide) (by decide) (by decide) (by decide) (by decide),
   iAmMaster_iff_masterRank
      (GroupTopology.mk [[0], [0, 1]] [0, 1] [5, 9] [0, 0] 5) 0
      (by decide) (by decide) (by decide) (by decide) (by decide)⟩

end mfem
